import Mathlib

/-!
Verification of the SheetGuard formula-to-graph analysis engine.

This file gives a shallow embedding of the core of the repository
(`sheetguard/core/references.py`, `sheetguard/core/graph.py`,
`sheetguard/detectors/impact.py`, `sheetguard/detectors/constants.py`,
`sheetguard/detectors/drift.py` and the risk tiering in
`sheetguard/cli/main.py`) and proves / refutes the frozen claims about it.

Conventions of the embedding:
* Python strings are Lean `String`s; scanning works on `List Char`.
* Python `int` is `Int`; Python `float` is modelled as `ℚ` (all numeric
  literals appearing in the analysed code paths are decimal literals, which
  are exact in both).
* Mutation is modelled by explicit state passing.
* Fallible code returns `Except String`.
-/

set_option maxRecDepth 8000

namespace SheetGuard

/-- Python `str.strip()` (whitespace trim at both ends), as used by
`build_dependency_graph` in `str(raw or '').strip()`. -/
def pyStrip (s : String) : String :=
  String.mk
    (((s.data.dropWhile Char.isWhitespace).reverse.dropWhile
      Char.isWhitespace).reverse)

/-- ASCII uppercase of one character (`str.upper()` on the ASCII inputs the
engine handles). -/
def upChar (c : Char) : Char :=
  if 'a' ≤ c && c ≤ 'z' then Char.ofNat (c.toNat - 32) else c

/-- ASCII `str.upper()`. -/
def asciiUpper (s : String) : String := String.mk (s.data.map upChar)

/-- Keep-first de-duplication, the order Python dicts/`dict.fromkeys` and the
networkx adjacency structure use (first insertion wins). -/
def dedupFirstAux {α} [DecidableEq α] (seen : List α) : List α → List α
  | [] => []
  | a :: as =>
    if a ∈ seen then dedupFirstAux seen as
    else a :: dedupFirstAux (seen ++ [a]) as

/-- Keep-first de-duplication of a list. -/
def dedupFirst {α} [DecidableEq α] (l : List α) : List α := dedupFirstAux [] l

/-- `sheetguard.core.references.RefToken`: one extracted reference token
(`raw`, optional `sheet`, `kind`, `symbolic`). `is_symbolic` is an alias of
`symbolic` in the source. -/
structure RefToken where
  raw : String
  sheet : Option String
  kind : String
  symbolic : Bool
deriving DecidableEq, Repr

/-- A networkx-style directed graph as used by `sheetguard.core.graph`:
node list and edge list in insertion order; re-inserting an existing node or
edge is a no-op. -/
structure DiGraph where
  nodes : List String
  edges : List (String × String)
deriving DecidableEq, Repr

/-- networkx `DiGraph.add_node`. -/
def DiGraph.addNode (g : DiGraph) (n : String) : DiGraph :=
  if n ∈ g.nodes then g else { g with nodes := g.nodes ++ [n] }

/-- networkx `DiGraph.add_edge`: ensures both endpoints exist as nodes, then
records the edge unless it is already present. -/
def DiGraph.addEdge (g : DiGraph) (u v : String) : DiGraph :=
  let ns := if u ∈ g.nodes then g.nodes else g.nodes ++ [u]
  let ns2 := if v ∈ ns then ns else ns ++ [v]
  { nodes := ns2
    edges := if (u, v) ∈ g.edges then g.edges else g.edges ++ [(u, v)] }

/-- `sheetguard.core.graph._node_id`: `f"{sheet}!{addr}"`. -/
def nodeId (sheet addr : String) : String := sheet ++ "!" ++ addr

/-- `SymbolicEdge` record appended to the reporting side channel by
`build_dependency_graph` for symbolic tokens. -/
structure SymbolicEdge where
  dependent : String
  ref : String
  raw : String
  sheet : String
  kind : String
deriving DecidableEq, Repr

/-- `raw = str(raw or '').strip()` for one token. -/
def refRaw (r : RefToken) : String := pyStrip r.raw

/-- `str(sheet) if sheet else str(sheet_name)` (an empty sheet string is
falsy). -/
def refSheetOf (sheetName : String) (r : RefToken) : String :=
  match r.sheet with
  | some s => if s = "" then sheetName else s
  | none => sheetName

/-- `ref_node = _node_id(ref_sheet, raw)`. -/
def refTarget (sheetName : String) (r : RefToken) : String :=
  nodeId (refSheetOf sheetName r) (refRaw r)

/-- One iteration of the `for r in refs` loop in the incremental
`build_dependency_graph` (style 2): skip empty raws, resolve the target node as
`(token.sheet or sheet_name)!raw`, add the edge, and append a `SymbolicEdge`
for symbolic tokens when a list sink was supplied. -/
def processRef (sheetName dep : String)
    (st : DiGraph × Option (List SymbolicEdge)) (r : RefToken) :
    DiGraph × Option (List SymbolicEdge) :=
  if refRaw r = "" then st
  else
    let refNode := refTarget sheetName r
    let g2 := st.1.addEdge dep refNode
    let sink :=
      if r.symbolic then
        match st.2 with
        | some es =>
          some (es ++ [{ dependent := dep, ref := refNode, raw := refRaw r,
                         sheet := refSheetOf sheetName r,
                         kind := if r.kind = "" then "symbolic" else r.kind }])
        | none => none
      else st.2
    (g2, sink)

/-- Incremental (Jan-28 v1 style) `build_dependency_graph`: ensure the
dependent node exists, then add one edge per non-empty token.  The Python
function mutates `g` and `symbolic_edges` in place; here the updated pair is
returned. -/
def build_dependency_graph (sheetName cellAddr : String) (refs : List RefToken)
    (g : DiGraph) (symbolicEdges : Option (List SymbolicEdge)) :
    DiGraph × Option (List SymbolicEdge) :=
  let dep := nodeId sheetName cellAddr
  refs.foldl (processRef sheetName dep) (g.addNode dep, symbolicEdges)

/-- The argument-validation wrapper of `build_dependency_graph` (style 2):
when any of `sheet_name`, `cell_addr`, `refs`, `g` is missing it raises
`TypeError` before touching any state; the graph and sink are returned
unchanged in that case (state-passing model of "no mutation happened"). -/
def build_dependency_graph_call (sheetName cellAddr : Option String)
    (refs : Option (List RefToken)) (g : Option DiGraph)
    (symbolicEdges : Option (List SymbolicEdge)) :
    Except String Unit × Option DiGraph × Option (List SymbolicEdge) :=
  match sheetName, cellAddr, refs, g with
  | some s, some a, some rs, some gr =>
    let res := build_dependency_graph s a rs gr symbolicEdges
    (Except.ok (), some res.1, res.2)
  | _, _, _, _ =>
    (Except.error
      "TypeError: build_dependency_graph: missing required args (sheet_name, cell_addr, refs, g)",
     g, symbolicEdges)

/-- One entry of the `detect_cycles` output:
`{"type": "cycle"|"error", "cells": [...]}`, with the `details` key present
only on error entries. -/
structure CycleEntry where
  type : String
  cells : List String
  details : Option String := none
deriving DecidableEq, Repr

/-- `{"type": "cycle", "cells": [str(x) for x in cyc]}`. -/
def cycEntry (cyc : List String) : CycleEntry := { type := "cycle", cells := cyc }

/-- The `for cyc in nx.simple_cycles(g)` loop of `detect_cycles`: append each
cycle, breaking as soon as `len(out) >= limit`.  Also reports whether the
`break` fired (if it did, the generator is never pulled again). -/
def detectCyclesLoop (limit : Int) :
    List (List String) → List CycleEntry → List CycleEntry × Bool
  | [], acc => (acc, false)
  | cyc :: rest, acc =>
    let acc2 := acc ++ [cycEntry cyc]
    if limit ≤ (acc2.length : Int) then (acc2, true)
    else detectCyclesLoop limit rest acc2

/-- `sheetguard.core.graph.detect_cycles`.  `nx.simple_cycles` is an external
library generator; it is modelled by `simpleCycles`, the cycles it yields in
order, paired with `failure = some details` when it raises after yielding
them (the `except` branch then appends a single error entry with no cells).
If the `limit` break fires first, the failing pull never happens. -/
def detect_cycles (simpleCycles : List (List String)) (failure : Option String)
    (limit : Int) : List CycleEntry :=
  let res := detectCyclesLoop limit simpleCycles []
  match failure with
  | some d =>
    if res.2 then res.1
    else res.1 ++ [{ type := "error", cells := [], details := some d }]
  | none => res.1

/-! ## Reference tokenizer (`sheetguard/core/references.py`)

The tokenizer's regexes are embedded as matchers over `List Char` in
continuation-passing style: a matcher consumes characters and calls its
continuation on the rest; greedy quantifiers backtrack from the longest
feasible run downwards, exactly as Python's `re` engine does. -/

/-- `[A-Z]`. -/
def isUpperAZ (c : Char) : Bool := 'A' ≤ c && c ≤ 'Z'

/-- `[0-9]` (`\d` on the ASCII inputs handled here). -/
def isDigit09 (c : Char) : Bool := '0' ≤ c && c ≤ '9'

/-- `[A-Za-z]`. -/
def isLetterAZ (c : Char) : Bool := isUpperAZ c || ('a' ≤ c && c ≤ 'z')

/-- regex word character `\w` restricted to ASCII: `[A-Za-z0-9_]`. -/
def isWordC (c : Char) : Bool := isLetterAZ c || isDigit09 c || c = '_'

/-- `[A-Za-z_]`. -/
def isIdentStart (c : Char) : Bool := isLetterAZ c || c = '_'

/-- Is the optional character a word character (`none` = string edge, which
counts as non-word for `\b`)? -/
def wordOpt : Option Char → Bool
  | some c => isWordC c
  | none => false

/-- Length of the maximal prefix of `cs` whose characters satisfy `p`. -/
def takeRunLen (p : Char → Bool) : List Char → Nat
  | [] => 0
  | c :: cs => if p c then takeRunLen p cs + 1 else 0

/-- Backtracking helper: try consuming `len, len-1, …, lo` characters of `cs`
(all already known to satisfy the quantified class), calling the continuation
`k` on each remainder; longest success wins, as for a greedy quantifier. -/
def tryFrom (cs : List Char) (k : List Char → Option Nat) (lo : Nat) :
    Nat → Option Nat
  | 0 => if lo = 0 then k cs else none
  | len + 1 =>
    if len + 1 < lo then none
    else
      match k (cs.drop (len + 1)) with
      | some n => some (len + 1 + n)
      | none => tryFrom cs k lo len

/-- Greedy bounded repetition `p{lo,hi}` with backtracking. -/
def tryRun (p : Char → Bool) (lo hi : Nat) (cs : List Char)
    (k : List Char → Option Nat) : Option Nat :=
  tryFrom cs k lo (min (takeRunLen p cs) hi)

/-- Greedy optional single character `p?` with backtracking. -/
def tryOpt (p : Char → Bool) (cs : List Char) (k : List Char → Option Nat) :
    Option Nat :=
  match cs with
  | c :: rest =>
    if p c then
      match k rest with
      | some n => some (n + 1)
      | none => k (c :: rest)
    else k (c :: rest)
  | [] => k []

/-- Literal character. -/
def litC (c : Char) (cs : List Char) (k : List Char → Option Nat) :
    Option Nat :=
  match cs with
  | d :: rest => if d = c then (k rest).map (· + 1) else none
  | [] => none

/-- Continuation accepting anything (pattern end, no anchor). -/
def matchEnd : List Char → Option Nat := fun _ => some 0

/-- Continuation accepting only the end of input (for `re.fullmatch`). -/
def matchEOS : List Char → Option Nat :=
  fun cs => if cs.isEmpty then some 0 else none

/-- `_CELL = \$?[A-Z]{1,3}\$?\d{1,7}`. -/
def mCell (cs : List Char) (k : List Char → Option Nat) : Option Nat :=
  tryOpt (· = '$') cs fun c1 =>
    tryRun isUpperAZ 1 3 c1 fun c2 =>
      tryOpt (· = '$') c2 fun c3 =>
        tryRun isDigit09 1 7 c3 k

/-- `_RANGE = _CELL:_CELL`. -/
def mRange (cs : List Char) (k : List Char → Option Nat) : Option Nat :=
  mCell cs fun c1 => litC ':' c1 fun c2 => mCell c2 k

/-- `_WHOLE_COL = \$?[A-Z]{1,3}:\$?[A-Z]{1,3}`. -/
def mWholeCol (cs : List Char) (k : List Char → Option Nat) : Option Nat :=
  tryOpt (· = '$') cs fun c1 =>
    tryRun isUpperAZ 1 3 c1 fun c2 =>
      litC ':' c2 fun c3 =>
        tryOpt (· = '$') c3 fun c4 =>
          tryRun isUpperAZ 1 3 c4 k

/-- `_WHOLE_ROW = \$?\d{1,7}:\$?\d{1,7}`. -/
def mWholeRow (cs : List Char) (k : List Char → Option Nat) : Option Nat :=
  tryOpt (· = '$') cs fun c1 =>
    tryRun isDigit09 1 7 c1 fun c2 =>
      litC ':' c2 fun c3 =>
        tryOpt (· = '$') c3 fun c4 =>
          tryRun isDigit09 1 7 c4 k

/-- The `addr` alternation `_RANGE|_CELL|_WHOLE_COL|_WHOLE_ROW`, in the
source's order. -/
def mAddr (cs : List Char) (k : List Char → Option Nat) : Option Nat :=
  mRange cs k <|> mCell cs k <|> mWholeCol cs k <|> mWholeRow cs k

/-- `_SHEET_PREFIX = (?:'(?P<qs>[^']+)'|(?P<us>[^'!]+))!`: returns the sheet
name and total consumed length.  The two alternatives are mutually exclusive
(the unquoted class excludes `'`), and each run is forced to be maximal by its
following mandatory character, so no cross-backtracking occurs. -/
def mSheetQual (cs : List Char) : Option (String × Nat) :=
  match cs with
  | '\'' :: rest =>
    let r := takeRunLen (· ≠ '\'') rest
    if r = 0 then none
    else
      match rest.drop r with
      | '\'' :: '!' :: _ => some (String.mk (rest.take r), r + 3)
      | _ => none
  | _ =>
    let r := takeRunLen (fun c => c ≠ '\'' && c ≠ '!') cs
    if r = 0 then none
    else
      match cs.drop r with
      | '!' :: _ => some (String.mk (cs.take r), r + 1)
      | _ => none

/-- `_RE_SHEET_RANGE` at one position: `(sheet!)addr`.  Returns total length,
sheet name and addr text. -/
def mSheetRange (cs : List Char) : Option (Nat × String × String) :=
  match mSheetQual cs with
  | none => none
  | some (sheet, pl) =>
    let rest := cs.drop pl
    match mAddr rest matchEnd with
    | some alen => some (pl + alen, sheet, String.mk (rest.take alen))
    | none => none

/-- `_RE_BARE_RANGE` at one position. -/
def mBareRange (cs : List Char) : Option (Nat × String) :=
  match mAddr cs matchEnd with
  | some alen => some (alen, String.mk (cs.take alen))
  | none => none

/-- `_RE_STRUCTURED = \b([A-Za-z_][A-Za-z0-9_]*\[[^\]]+\])\b` at one position
(`prev` is the character before the position, for the leading `\b`).  Note the
trailing `\b` sits after `]`, a non-word character, so it only holds when the
very next character is a word character. -/
def mStructured (prev : Option Char) (cs : List Char) : Option (Nat × String) :=
  if wordOpt prev then none
  else
    match cs with
    | c :: _ =>
      if isIdentStart c then
        let identLen := takeRunLen isWordC cs
        match cs.drop identLen with
        | '[' :: rest2 =>
          let innerLen := takeRunLen (· ≠ ']') rest2
          if innerLen = 0 then none
          else
            match rest2.drop innerLen with
            | ']' :: tail =>
              let total := identLen + 1 + innerLen + 1
              match tail with
              | t :: _ =>
                if isWordC t then some (total, String.mk (cs.take total))
                else none
              | [] => none
            | _ => none
        | _ => none
      else none
    | [] => none

/-- Backtracking for the trailing `\b` of `_RE_NAME`: try tail lengths
`t, t-1, …, 0` (total match length `t+1`); the boundary holds when exactly one
of (last matched char, following char) is a word character. -/
def nameBack (c : Char) (rest : List Char) : Nat → Option Nat
  | 0 => if wordOpt rest.head? then none else some 1
  | t + 1 =>
    let last := rest.getD t ' '
    let nxt := rest.get? (t + 1)
    if isWordC last ≠ wordOpt nxt then some (t + 2)
    else nameBack c rest t

/-- `_RE_NAME = \b([A-Za-z_][A-Za-z0-9_\.]{0,255})\b` at one position; returns
length, name text and the character following the match (used by the
function-call exclusion `f[m.end():m.end()+1] == "("`). -/
def mNameTok (prev : Option Char) (cs : List Char) :
    Option (Nat × String × Option Char) :=
  if wordOpt prev then none
  else
    match cs with
    | c :: rest =>
      if isIdentStart c then
        let tailRun := min (takeRunLen (fun d => isWordC d || d = '.') rest) 255
        match nameBack c rest tailRun with
        | some len => some (len, String.mk ((c :: rest).take len),
                            (c :: rest).get? len)
        | none => none
      else none
    | [] => none

/-- `re.finditer` driver: scan left to right, at each position try the matcher;
on a match, emit its payload and continue after it, otherwise advance one
character.  `prev` tracks the previous character for `\b` assertions.  The
fuel is the input length plus one, and every successful match consumes at
least one character, so the fuel never runs out. -/
def scanTokens {β : Type} (step : Option Char → List Char → Option (Nat × β)) :
    Nat → Option Char → List Char → List β
  | 0, _, _ => []
  | _ + 1, _, [] => []
  | fuel + 1, prev, c :: rest =>
    match step prev (c :: rest) with
    | some (len, b) =>
      let consumed := max len 1
      b :: scanTokens step fuel (some ((c :: rest).getD (consumed - 1) c))
            ((c :: rest).drop consumed)
    | none => scanTokens step fuel (some c) rest

/-- `re.fullmatch(_CELL, s)` as a Boolean. -/
def fullCell (s : String) : Bool := (mCell s.data matchEOS).isSome

/-- `re.fullmatch(_RANGE, s)` as a Boolean. -/
def fullRange (s : String) : Bool := (mRange s.data matchEOS).isSome

/-- `re.fullmatch(_WHOLE_COL, s)` as a Boolean. -/
def fullWholeCol (s : String) : Bool := (mWholeCol s.data matchEOS).isSome

/-- `re.fullmatch(_WHOLE_ROW, s)` as a Boolean. -/
def fullWholeRow (s : String) : Bool := (mWholeRow s.data matchEOS).isSome

/-- `_kind_from_addr`. -/
def kindFromAddr (addr : String) : String :=
  if fullCell addr then "cell"
  else if fullRange addr then "range"
  else if fullWholeCol addr then "whole_column"
  else if fullWholeRow addr then "whole_row"
  else "symbolic"

/-- `_VOLATILE_FUNCS`. -/
def volatileFuncs : List String :=
  ["NOW", "TODAY", "RAND", "RANDBETWEEN", "OFFSET", "INDIRECT", "CELL", "INFO"]

/-- `extract_reference_tokens`: the four extraction passes (structured refs,
sheet-qualified addresses, bare addresses, candidate named ranges) followed by
order-preserving de-duplication on `(raw, sheet, kind, symbolic)`. -/
def extract_reference_tokens (formula : String) : List RefToken :=
  if formula = "" then []
  else
    let cs :=
      match formula.data with
      | '=' :: rest => rest
      | l => l
    let fuel := cs.length + 1
    let toks1 : List RefToken :=
      (scanTokens mStructured fuel none cs).map fun name =>
        { raw := name, sheet := none, kind := "symbolic", symbolic := true }
    let toks2 : List RefToken :=
      (scanTokens (fun _ l => mSheetRange l) fuel none cs).map fun p =>
        { raw := p.2, sheet := some p.1, kind := kindFromAddr p.2,
          symbolic := false }
    let toks3 : List RefToken :=
      (scanTokens (fun _ l => mBareRange l) fuel none cs).map fun addr =>
        { raw := addr, sheet := none, kind := kindFromAddr addr,
          symbolic := false }
    let names := scanTokens mNameTok fuel none cs
    let toks4 : List RefToken :=
      (names.filter fun p =>
        ¬ (p.2 = some '(' ||
           fullCell p.1 || fullWholeCol p.1 || fullWholeRow p.1 ||
           ["TRUE", "FALSE", "NA", "N", "PI", "E"].contains (asciiUpper p.1) ||
           volatileFuncs.contains (asciiUpper p.1))).map fun p =>
        { raw := p.1, sheet := none, kind := "symbolic", symbolic := true }
    dedupFirst (toks1 ++ toks2 ++ toks3 ++ toks4)

/-- networkx `g.successors(n)`: distinct edge targets of `n`, first-insertion
order. -/
def succs (g : DiGraph) (n : String) : List String :=
  dedupFirst ((g.edges.filter fun e => e.1 = n).map Prod.snd)

/-- All edge targets of the graph (used to bound the BFS below). -/
def edgeTargets (g : DiGraph) : List String := g.edges.map Prod.snd

/-- `visited.add(nxt); q.append(nxt)` guarded by `nxt not in visited`, over a
list of candidate successors.  `visited` is a Python set, modelled as a
duplicate-free list (only membership and size are ever used). -/
def pushNew (st : List String × List String) (ns : List String) :
    List String × List String :=
  ns.foldl
    (fun acc nxt =>
      if nxt ∈ acc.1 then acc else (acc.1 ++ [nxt], acc.2 ++ [nxt]))
    st

/-- The `while q and len(visited) < max_nodes` loop of
`sheetguard.detectors.impact.downstream_reach`.  `fuel` is an upper bound on
the number of iterations: each iteration pops exactly one queue element, and
the total number of elements ever enqueued is at most the initial queue length
plus one per distinct edge target, so the fuel chosen in `reachList` can never
run out before the queue empties. -/
def bfsLoop (g : DiGraph) (maxNodes : Int) :
    Nat → List String → List String → List String
  | 0, visited, _ => visited
  | _ + 1, visited, [] => visited
  | fuel + 1, visited, node :: rest =>
    if (visited.length : Int) < maxNodes then
      let st := pushNew (visited, rest) (succs g node)
      bfsLoop g maxNodes fuel st.1 st.2
    else visited

/-- The `visited` set computed by `downstream_reach` (as a duplicate-free
list): seeded with the successors of `start`, then bounded BFS. -/
def reachList (g : DiGraph) (start : String) (maxNodes : Int) : List String :=
  let init := pushNew ([], []) (succs g start)
  bfsLoop g maxNodes (g.edges.length + init.2.length + 1) init.1 init.2

/-- `sheetguard.detectors.impact.downstream_reach`: `len(visited)` after the
bounded BFS. -/
def downstream_reach (g : DiGraph) (start : String) (maxNodes : Int) : Int :=
  (reachList g start maxNodes).length

/-- Decimal digit string to `Nat`. -/
def digitsToNat (ds : List Char) : Nat :=
  ds.foldl (fun a c => a * 10 + (c.toNat - '0'.toNat)) 0

/-! ## Hardcoded-constant detector (`sheetguard/detectors/constants.py`) -/

/-- Exact unnormalized fraction `num / den` (`den` positive by construction):
the model of a Python `float` produced from a decimal/scientific literal.
Every literal the engine's number regexes can match denotes an exact decimal,
and the analysed code only compares such values, so the exact-fraction model
is faithful on these paths. -/
structure PyFloat where
  num : Int
  den : Nat
deriving DecidableEq, Repr

/-- `a < b` on exact fractions (positive denominators), by
cross-multiplication. -/
def PyFloat.blt (a b : PyFloat) : Bool :=
  a.num * (b.den : Int) < b.num * (a.den : Int)

/-- `float.is_integer` on an exact fraction. -/
def PyFloat.isInt (a : PyFloat) : Bool := a.num.natAbs % a.den = 0

/-- `ConstantHit` (source dataclass). -/
structure ConstantHit where
  literal : String
  value : PyFloat
  operator : String
  function : String
  startPos : Nat
  endPos : Nat
deriving DecidableEq, Repr

/-- `_strip_quoted_segments`: replace characters inside double quotes with
spaces, keeping the quotes and all indices. -/
def stripQuotedAux : Bool → List Char → List Char
  | _, [] => []
  | inQ, c :: rest =>
    if c = '"' then c :: stripQuotedAux (!inQ) rest
    else (if inQ then ' ' else c) :: stripQuotedAux inQ rest

/-- `_strip_quoted_segments` on a string. -/
def stripQuotedSegments (s : String) : String :=
  String.mk (stripQuotedAux false s.data)

/-- `_NUM_RE` of the constants detector at one position:
`[+-]? (?:\d+(?:\.\d*)?|\.\d+) (?:e[+-]?\d+)?` (case-insensitive `e`).
Returns the matched length.  The optional sign never backtracks usefully and
the optional fraction/exponent groups simply drop out when they cannot
complete, exactly as the greedy engine behaves. -/
def matchNumAt (cs : List Char) : Option Nat :=
  let (sgnLen, cs1) :=
    match cs with
    | c :: rest => if c = '+' || c = '-' then (1, rest) else (0, cs)
    | [] => (0, cs)
  let d1 := takeRunLen isDigit09 cs1
  let mant : Option Nat :=
    if d1 > 0 then
      match cs1.drop d1 with
      | '.' :: r => some (d1 + 1 + takeRunLen isDigit09 r)
      | _ => some d1
    else
      match cs1 with
      | '.' :: r =>
        let fr := takeRunLen isDigit09 r
        if fr > 0 then some (1 + fr) else none
      | _ => none
  match mant with
  | none => none
  | some mlen =>
    let rest2 := cs1.drop mlen
    let expLen :=
      match rest2 with
      | c :: r =>
        if c = 'e' || c = 'E' then
          let (esLen, r2) :=
            match r with
            | d :: r2 => if d = '+' || d = '-' then (1, r2) else (0, r)
            | [] => (0, r)
          let ed := takeRunLen isDigit09 r2
          if ed > 0 then 1 + esLen + ed else 0
        else 0
      | [] => 0
    some (sgnLen + mlen + expLen)

/-- `re.finditer(_NUM_RE, s)`: non-overlapping scan yielding
`(literal, start, end)` triples. -/
def scanNums : Nat → Nat → List Char → List (String × Nat × Nat)
  | 0, _, _ => []
  | _ + 1, _, [] => []
  | fuel + 1, pos, c :: rest =>
    match matchNumAt (c :: rest) with
    | some len =>
      let len1 := max len 1
      (String.mk ((c :: rest).take len1), pos, pos + len1) ::
        scanNums fuel (pos + len1) ((c :: rest).drop len1)
    | none => scanNums fuel (pos + 1) rest

/-- `_looks_like_cell_ref_near`: the literal is skipped when the character
just before or just after it is a letter or `$` (Python's out-of-range `""`
is `none` here and satisfies neither test). -/
def looksLikeCellRefNear (cs : List Char) (start «end» : Nat) : Bool :=
  let prev : Option Char := if start = 0 then none else cs.get? (start - 1)
  let nxt : Option Char := cs.get? «end»
  let isA : Option Char → Bool := fun o =>
    match o with
    | some c => isLetterAZ c || c = '$'
    | none => false
  isA prev || isA nxt

/-- The leftward whitespace-skipping scan of `_nearest_operator`
(`i = start-1; while i >= 0 and s[i].isspace(): i -= 1`); the argument is
`i + 1` so that `0` encodes "ran off the left edge". -/
def scanLeftNonWs (cs : List Char) : Nat → Option Char
  | 0 => none
  | i + 1 =>
    match cs.get? i with
    | some c => if c.isWhitespace then scanLeftNonWs cs i else some c
    | none => none

/-- Is the character one of the operators `*/+-`? -/
def isOpChar (c : Char) : Bool := c = '*' || c = '/' || c = '+' || c = '-'

/-- `_nearest_operator`: nearest non-space character just left of the literal
if it is an operator, else the nearest non-space character at/after `start`
if it is an operator, else `""`. -/
def nearestOperator (cs : List Char) (start : Nat) : String :=
  match scanLeftNonWs cs start with
  | some c =>
    if isOpChar c then String.mk [c] else nearestOperatorRight cs start
  | none => nearestOperatorRight cs start
where
  nearestOperatorRight (cs : List Char) (start : Nat) : String :=
    match ((cs.drop start).dropWhile Char.isWhitespace).head? with
    | some c => if isOpChar c then String.mk [c] else ""
    | none => ""

/-- The name-extraction step of `_enclosing_function`: scan left from the
unmatched `(` at index `i` over `[A-Za-z._]` characters, then
`.strip().upper()`. -/
def funcNameBefore (cs : List Char) (i : Nat) : String :=
  let before := cs.take i
  let nm := (before.reverse.takeWhile fun c =>
    isLetterAZ c || c = '.' || c = '_').reverse
  asciiUpper (pyStrip (String.mk nm))

/-- `_enclosing_function`: walk left from `pos` (argument is `pos + 1`, `0`
meaning "past the left edge") tracking parenthesis depth; at the first
unmatched `(` return the identifier before it. -/
def enclosingFuncAux (cs : List Char) (depth : Nat) : Nat → String
  | 0 => ""
  | i + 1 =>
    let ch := cs.getD i ' '
    if ch = ')' then enclosingFuncAux cs (depth + 1) i
    else if ch = '(' then
      if depth = 0 then funcNameBefore cs i
      else enclosingFuncAux cs (depth - 1) i
    else enclosingFuncAux cs depth i

/-- `_enclosing_function(s, pos)`. -/
def enclosingFunc (cs : List Char) (pos : Nat) : String :=
  enclosingFuncAux cs 0 (pos + 1)

/-- Decimal/scientific literal to an exact fraction (model of Python
`float(lit)` on the literals `_NUM_RE` produces). -/
def parseFloatLit (s : String) : Option PyFloat :=
  let cs := s.data
  let (neg, cs1) :=
    match cs with
    | '+' :: r => (false, r)
    | '-' :: r => (true, r)
    | _ => (false, cs)
  let ip := cs1.takeWhile isDigit09
  let rest1 := cs1.drop ip.length
  let (fp, rest2) :=
    match rest1 with
    | '.' :: r => (r.takeWhile isDigit09, r.drop (r.takeWhile isDigit09).length)
    | _ => ([], rest1)
  if ip.isEmpty && fp.isEmpty then none
  else
    let m : Nat := digitsToNat (ip ++ fp)
    let n0 : Int := if neg then -(m : Int) else (m : Int)
    let d0 : Nat := 10 ^ fp.length
    match rest2 with
    | [] => some ⟨n0, d0⟩
    | c :: r =>
      if c = 'e' || c = 'E' then
        let (eNeg, r2) :=
          match r with
          | '+' :: r2 => (false, r2)
          | '-' :: r2 => (true, r2)
          | _ => (false, r)
        let ed := r2.takeWhile isDigit09
        if ed.isEmpty || !(r2.drop ed.length).isEmpty then none
        else
          let e := digitsToNat ed
          if eNeg then some ⟨n0, d0 * 10 ^ e⟩
          else some ⟨n0 * (10 ^ e : Nat), d0⟩
      else none

/-- Configuration of the constants detector; the empty/missing default for
each key is the empty list. -/
structure ConstCfg where
  ignoreLiterals : List String := []
  ignoreFunctions : List String := []
  riskyOperators : List String := []
  riskyFunctions : List String := []
deriving Repr

/-- The per-literal body of the `for m in _NUM_RE.finditer(s)` loop: returns
`some hit` when the literal is flagged. -/
def processNum (cs : List Char) (ignoreLiterals ignoreFunctions
    riskyOperators riskyFunctions : List String)
    (m : String × Nat × Nat) : Option ConstantHit :=
  let lit := m.1
  let start := m.2.1
  let «end» := m.2.2
  if looksLikeCellRefNear cs start «end» then none
  else
    match parseFloatLit lit with
    | none => none
    | some val =>
      let litUnsigned := lit.dropWhile fun c => c = '+' || c = '-'
      if ignoreLiterals.contains lit || ignoreLiterals.contains litUnsigned then
        none
      else if val.isInt &&
          ignoreLiterals.contains (toString (val.num.natAbs / val.den)) then
        none
      else
        let op := nearestOperator cs start
        let func := enclosingFunc cs start
        if func ≠ "" && ignoreFunctions.contains func then none
        else
          let shouldFlag :=
            (op ≠ "" && riskyOperators.contains op) ||
            (func ≠ "" && riskyFunctions.contains func)
          if shouldFlag then
            some { literal := lit, value := val, operator := op,
                   function := func, startPos := start, endPos := «end» }
          else none

/-- `detect_hardcoded_constants`: empty/missing `risky_operators` falls back
to `{"*", "/"}` (the deliberate guard against "flag everything"); quoted text
is blanked out first; each numeric literal is filtered through the
cell-reference, ignore-list, operator and function rules. -/
def detect_hardcoded_constants (formula : String) (cfg : ConstCfg) :
    List ConstantHit :=
  let ignoreLiterals := cfg.ignoreLiterals
  let ignoreFunctions := cfg.ignoreFunctions.map asciiUpper
  let riskyOperators :=
    if cfg.riskyOperators = [] then ["*", "/"] else cfg.riskyOperators
  let riskyFunctions := cfg.riskyFunctions.map asciiUpper
  if formula = "" then []
  else
    let cs := (stripQuotedSegments formula).data
    (scanNums (cs.length + 1) 0 cs).filterMap
      (processNum cs ignoreLiterals ignoreFunctions riskyOperators
        riskyFunctions)

/-! ## Formula-drift detector (`sheetguard/detectors/drift.py`) -/

/-- The sheet-qualifier group of the drift `_CELL_REF_RE`:
`(?:('[^']+'|[A-Za-z0-9_]+)!)?` — quoted or word-character sheet name followed
by `!` (returns consumed length; the caller falls back to no qualifier). -/
def mDriftSheetQual (cs : List Char) : Option Nat :=
  match cs with
  | '\'' :: rest =>
    let r := takeRunLen (· ≠ '\'') rest
    if r = 0 then none
    else
      match rest.drop r with
      | '\'' :: '!' :: _ => some (r + 3)
      | _ => none
  | _ =>
    let r := takeRunLen isWordC cs
    if r = 0 then none
    else
      match cs.drop r with
      | '!' :: _ => some (r + 1)
      | _ => none

/-- One endpoint `\$?[A-Z]{1,3}\$?\d+` of the drift cell-reference regex
(unbounded digit run). -/
def mDriftAddrPart (cs : List Char) (k : List Char → Option Nat) :
    Option Nat :=
  tryOpt (· = '$') cs fun c1 =>
    tryRun isUpperAZ 1 3 c1 fun c2 =>
      tryOpt (· = '$') c2 fun c3 =>
        tryRun isDigit09 1 c3.length c3 k

/-- `\$?[A-Z]{1,3}\$?\d+(?::\$?[A-Z]{1,3}\$?\d+)?` — endpoint with optional
(greedy) range tail. -/
def mDriftAddr (cs : List Char) : Option Nat :=
  mDriftAddrPart cs fun rest =>
    (litC ':' rest fun r2 => mDriftAddrPart r2 matchEnd) <|> matchEnd rest

/-- The drift `_CELL_REF_RE` at one position: optional sheet qualifier (with
fall-back to none when the address after it fails), then the address. -/
def mDriftCellRef (cs : List Char) : Option Nat :=
  let withQual :=
    match mDriftSheetQual cs with
    | some pl => (mDriftAddr (cs.drop pl)).map (pl + ·)
    | none => none
  withQual <|> mDriftAddr cs

/-- The drift `_NUM_RE` at one position:
`(?<![A-Za-z_])[-+]?\d+(?:\.\d+)?(?:[eE][-+]?\d+)?` (negative look-behind on
the previous character). -/
def mDriftNum (prev : Option Char) (cs : List Char) : Option Nat :=
  let behindBad :=
    match prev with
    | some c => isIdentStart c
    | none => false
  if behindBad then none
  else
    let (sgnLen, cs1) :=
      match cs with
      | c :: rest => if c = '+' || c = '-' then (1, rest) else (0, cs)
      | [] => (0, cs)
    let d1 := takeRunLen isDigit09 cs1
    if d1 = 0 then none
    else
      let rest1 := cs1.drop d1
      let fracLen :=
        match rest1 with
        | '.' :: r =>
          let fr := takeRunLen isDigit09 r
          if fr > 0 then 1 + fr else 0
        | _ => 0
      let rest2 := rest1.drop fracLen
      let expLen :=
        match rest2 with
        | c :: r =>
          if c = 'e' || c = 'E' then
            let (esLen, r2) :=
              match r with
              | d :: r2 => if d = '+' || d = '-' then (1, r2) else (0, r)
              | [] => (0, r)
            let ed := takeRunLen isDigit09 r2
            if ed > 0 then 1 + esLen + ed else 0
          else 0
        | [] => 0
      some (sgnLen + d1 + fracLen + expLen)

/-- `re.sub` driver: leftmost non-overlapping matches replaced by `repl`,
tracking the previous character for look-behind/boundary assertions. -/
def regexSubAux (m : Option Char → List Char → Option Nat) (repl : List Char) :
    Nat → Option Char → List Char → List Char
  | 0, _, _ => []
  | _ + 1, _, [] => []
  | fuel + 1, prev, c :: rest =>
    match m prev (c :: rest) with
    | some len =>
      let len1 := max len 1
      repl ++ regexSubAux m repl fuel (some ((c :: rest).getD (len1 - 1) c))
        ((c :: rest).drop len1)
    | none => c :: regexSubAux m repl fuel (some c) rest

/-- `normalize_formula`: strip, require a leading `=`, replace cell/range
references by `CELL` and numeric literals by `NUM`, drop whitespace,
uppercase. -/
def normalize_formula (formula : String) : String :=
  let cs := (pyStrip formula).data
  match cs with
  | '=' :: _ =>
    let c1 := regexSubAux (fun _ l => mDriftCellRef l) "CELL".data
      (cs.length + 1) none cs
    let c2 := regexSubAux mDriftNum "NUM".data (c1.length + 1) none c1
    asciiUpper (String.mk (c2.filter fun c => !c.isWhitespace))
  | _ => ""

/-- `re.match(r"^[A-Z]{1,3}(\d+)$", addr)`: the 1-based row number parsed from
a plain column+row address. -/
def parseRowAddr (addr : String) : Option Nat :=
  let cs := addr.data
  let ls := takeRunLen isUpperAZ cs
  let rest := cs.drop ls
  if 1 ≤ ls && ls ≤ 3 && !rest.isEmpty && rest.all isDigit09 then
    some (digitsToNat rest)
  else none

/-- One drift finding (source dict shape). -/
structure DriftFinding where
  sheet : String
  cell : String
  formula : String
  dominantShape : String
  cellShape : String
  row : Nat
  driftScope : String
  note : String
deriving DecidableEq, Repr

/-- Drift-detector config; `none` models a missing key.  Python's
`int(x or default)` / `float(x or default)` maps falsy (zero) configured
values back to the default, reproduced in the effective accessors below.
`dominant_ratio` is carried as an exact fraction (the source compares plain
float divisions of small integers, whose ordering the exact comparison
reproduces). -/
structure DriftCfg where
  enabled : Option Bool := none
  minRowFormulaCount : Option Int := none
  dominantShare : Option PyFloat := none
  maxFindings : Option Int := none

/-- `int(cfg.get("min_row_formula_count", 6) or 6)`. -/
def DriftCfg.minGroup (cfg : DriftCfg) : Int :=
  match cfg.minRowFormulaCount with
  | some v => if v = 0 then 6 else v
  | none => 6

/-- `float(cfg.get("dominant_ratio", 0.60) or 0.60)`. -/
def DriftCfg.domShare (cfg : DriftCfg) : PyFloat :=
  match cfg.dominantShare with
  | some v => if v.num = 0 then ⟨3, 5⟩ else v
  | none => ⟨3, 5⟩

/-- `int(cfg.get("max_findings", 50) or 50)`. -/
def DriftCfg.maxF (cfg : DriftCfg) : Int :=
  match cfg.maxFindings with
  | some v => if v = 0 then 50 else v
  | none => 50

/-- Insert into the `defaultdict(list)` keyed by row number (dict key order =
first-insertion order, values appended in encounter order). -/
def upsertRow (rows : List (Nat × List (String × String × String))) (r : Nat)
    (item : String × String × String) :
    List (Nat × List (String × String × String)) :=
  match rows with
  | [] => [(r, [item])]
  | (k, items) :: rest =>
    if k = r then (k, items ++ [item]) :: rest
    else (k, items) :: upsertRow rest r item

/-- One step of the first loop of `detect_formula_drift`: keep the cell if
its address parses as `^[A-Z]{1,3}(\d+)$` and its normalized shape is
non-empty. -/
def buildRowsStep (rows : List (Nat × List (String × String × String)))
    (cell : String × String) : List (Nat × List (String × String × String)) :=
  match parseRowAddr cell.1 with
  | none => rows
  | some r =>
    let shape := normalize_formula cell.2
    if shape = "" then rows else upsertRow rows r (cell.1, cell.2, shape)

/-- The first loop of `detect_formula_drift` for one sheet: group the kept
cells by row number. -/
def buildRows (cells : List (String × String)) :
    List (Nat × List (String × String × String)) :=
  cells.foldl buildRowsStep []

/-- `Counter(shapes)`: counts in first-occurrence order. -/
def countShapes (shapes : List String) : List (String × Nat) :=
  shapes.foldl
    (fun acc s => upsertCount acc s)
    []
where
  upsertCount : List (String × Nat) → String → List (String × Nat)
    | [], s => [(s, 1)]
    | (k, n) :: rest, s =>
      if k = s then (k, n + 1) :: rest else (k, n) :: upsertCount rest s

/-- `counts.most_common(1)[0]`: the maximal count, first-encountered shape
winning ties (`most_common` sorts stably by descending count over the
first-occurrence key order). -/
def mostCommon1 (counts : List (String × Nat)) : Option (String × Nat) :=
  counts.foldl
    (fun best kv =>
      match best with
      | none => some kv
      | some b => if kv.2 > b.2 then some kv else some b)
    none

/-- The inner `for addr, formula, shape in items` loop: emit a finding for
every non-dominant shape, returning early (flag `true`) once
`len(findings) >= max_findings`. -/
def driftRowItems (sheet dominantShape : String) (r : Nat) (maxF : Int) :
    List (String × String × String) → List DriftFinding →
    List DriftFinding × Bool
  | [], acc => (acc, false)
  | (addr, formula, shape) :: rest, acc =>
    if shape = dominantShape then driftRowItems sheet dominantShape r maxF rest acc
    else
      let acc2 := acc ++
        [{ sheet := sheet, cell := addr, formula := formula,
           dominantShape := dominantShape, cellShape := shape, row := r,
           driftScope := "row",
           note := "Formula shape differs from dominant pattern in the same row (possible copy/paste drift)." }]
      if maxF ≤ (acc2.length : Int) then (acc2, true)
      else driftRowItems sheet dominantShape r maxF rest acc2

/-- The `for r, items in rows.items()` loop: skip rows below
`min_row_formula_count` and rows without a dominant shape
(`dom_count / max(1, len(items)) < dominant_ratio`), else scan the row's
items.  The Boolean result propagates the early `return findings`. -/
def driftRows (sheet : String) (minGroup : Int) (domShare : PyFloat) (maxF : Int) :
    List (Nat × List (String × String × String)) → List DriftFinding →
    List DriftFinding × Bool
  | [], acc => (acc, false)
  | (r, items) :: rest, acc =>
    if (items.length : Int) < minGroup then
      driftRows sheet minGroup domShare maxF rest acc
    else
      match mostCommon1 (countShapes (items.map fun it => it.2.2)) with
      | none => driftRows sheet minGroup domShare maxF rest acc
      | some dom =>
        if PyFloat.blt ⟨(dom.2 : Int), max 1 items.length⟩ domShare then
          driftRows sheet minGroup domShare maxF rest acc
        else
          let res := driftRowItems sheet dom.1 r maxF items acc
          if res.2 then res
          else driftRows sheet minGroup domShare maxF rest res.1

/-- The outer `for sheet, cells in formula_cells_by_sheet.items()` loop. -/
def driftSheets (minGroup : Int) (domShare : PyFloat) (maxF : Int) :
    List (String × List (String × String)) → List DriftFinding →
    List DriftFinding
  | [], acc => acc
  | (sheet, cells) :: rest, acc =>
    let res := driftRows sheet minGroup domShare maxF (buildRows cells) acc
    if res.2 then res.1 else driftSheets minGroup domShare maxF rest res.1

/-- `detect_formula_drift`. -/
def detect_formula_drift (formulaCellsBySheet : List (String × List (String × String)))
    (cfg : DriftCfg) : List DriftFinding :=
  if !(cfg.enabled.getD true) then []
  else driftSheets cfg.minGroup cfg.domShare cfg.maxF formulaCellsBySheet []

/-! ## Risk tiering (`sheetguard/cli/main.py`: `_cfg_get`, `_compute_risk_tier`) -/

/-- A Python/YAML configuration value: `None`, bool, number, string or nested
dict (entries in insertion order, keys unique). -/
inductive CfgVal where
  | vNone
  | vBool (b : Bool)
  | vNum (q : ℚ)
  | vStr (s : String)
  | vDict (entries : List (String × CfgVal))

/-- First-match association-list lookup (Python dict `get`). -/
def assocLookup {α : Type} : List (String × α) → String → Option α
  | [], _ => none
  | (k, v) :: rest, key => if k = key then some v else assocLookup rest key

/-- Python truthiness of a configuration value. -/
def pyTruthy : CfgVal → Bool
  | .vNone => false
  | .vBool b => b
  | .vNum q => q ≠ 0
  | .vStr s => s ≠ ""
  | .vDict es => !es.isEmpty

/-- The key-walking loop of `_cfg_get`. -/
def cfgGetPath (default : CfgVal) : CfgVal → List String → CfgVal
  | cur, [] => cur
  | cur, k :: ks =>
    match cur with
    | .vDict es =>
      match assocLookup es k with
      | some v => cfgGetPath default v ks
      | none => default
    | _ => default

/-- `str(path).split(".")` (always at least one piece, empty pieces kept). -/
def splitDotAux (acc : List Char) : List Char → List String
  | [] => [String.mk acc.reverse]
  | c :: rest =>
    if c = '.' then String.mk acc.reverse :: splitDotAux [] rest
    else splitDotAux (c :: acc) rest

/-- `path.split(".")` on a string. -/
def splitDot (s : String) : List String := splitDotAux [] s.data

/-- `_cfg_get(cfg, path, default)`: dotted-path lookup in nested dicts. -/
def cfgGet (cfg : CfgVal) (path : String) (default : CfgVal) : CfgVal :=
  if path = "" then default else cfgGetPath default cfg (splitDot path)

/-- Python `float(v)` on a configuration value (exact-rational model; strings
go through the decimal-literal parser, other types raise). -/
def pyFloatQ : CfgVal → Except String ℚ
  | .vNum q => .ok q
  | .vBool b => .ok (if b then 1 else 0)
  | .vStr s =>
    match parseFloatLit (pyStrip s) with
    | some f => .ok ((f.num : ℚ) / (f.den : ℚ))
    | none => .error "ValueError: could not convert string to float"
  | _ => .error "TypeError: float() argument must be a number"

/-- `weights.get(k, 0) or 0`. -/
def wOr0 (es : List (String × CfgVal)) (k : String) : CfgVal :=
  let v := (assocLookup es k).getD (.vNum 0)
  if pyTruthy v then v else .vNum 0

/-- `float(thresholds.get(k, 999999) or 999999)`. -/
def thOr (es : List (String × CfgVal)) (k : String) : Except String ℚ :=
  let v := (assocLookup es k).getD (.vNum 999999)
  pyFloatQ (if pyTruthy v then v else .vNum 999999)

/-- `signals_map.get(k, 0) or 0` (signal counts are ints). -/
def sgGet (signals : List (String × Int)) (k : String) : Int :=
  (assocLookup signals k).getD 0

/-- Stable descending insertion used for
`sorted(contrib_items, key=value, reverse=True)`: an element passes only
strictly larger values, so original order is kept among ties. -/
def insDesc (x : String × ℚ) : List (String × ℚ) → List (String × ℚ)
  | [] => [x]
  | y :: ys => if y.2 > x.2 then y :: insDesc x ys else x :: y :: ys

/-- Stable descending sort by contribution value. -/
def sortDesc : List (String × ℚ) → List (String × ℚ)
  | [] => []
  | x :: xs => insDesc x (sortDesc xs)

/-- The `labels` table of `_compute_risk_tier` (with `labels.get(k, k)`). -/
def tierLabel (k : String) : String :=
  (assocLookup
    [("cycles", "circular dependency"),
     ("top_risk_cells", "high-impact drivers"),
     ("volatile_hits", "volatile functions"),
     ("hardcoded_constants", "embedded multipliers"),
     ("orphan_formulas", "orphan formulas"),
     ("symbolic_refs_per_100", "symbolic references")] k).getD k

/-- The weighted-scoring branch of `_compute_risk_tier` (config supplies both
`thresholds` and `weights` dicts). -/
def weightedTier (th ws : List (String × CfgVal)) (signals : List (String × Int))
    (hasCycles : Bool) (topRiskCells : Int) : Except String (String × String) := do
  let sym := sgGet signals "symbolic"
  let vol := sgGet signals "volatile"
  let consts := sgGet signals "constants"
  let orphans := sgGet signals "orphans"
  let wCyc ← pyFloatQ (wOr0 ws "cycles")
  let cCyc := wCyc * (if hasCycles then 1 else 0)
  let wTop ← pyFloatQ (wOr0 ws "top_risk_cells")
  let cTop := wTop * (topRiskCells : ℚ)
  let wVol ← pyFloatQ (wOr0 ws "volatile_hits")
  let cVol := wVol * (vol : ℚ)
  let wCon ← pyFloatQ (wOr0 ws "hardcoded_constants")
  let cCon := wCon * (consts : ℚ)
  let wOrp ← pyFloatQ (wOr0 ws "orphan_formulas")
  let cOrp := wOrp * (orphans : ℚ)
  let symPer100 : ℚ := (sym : ℚ) / 100
  let wSym ← pyFloatQ (wOr0 ws "symbolic_refs_per_100")
  let cSym := wSym * symPer100
  let contrib : List (String × ℚ) :=
    [("cycles", cCyc), ("top_risk_cells", cTop), ("volatile_hits", cVol),
     ("hardcoded_constants", cCon), ("orphan_formulas", cOrp),
     ("symbolic_refs_per_100", cSym)]
  let score := (contrib.map Prod.snd).sum
  let highTh ← thOr th "high"
  let medTh ← thOr th "medium"
  let tier :=
    if score ≥ highTh then "HIGH"
    else if score ≥ medTh then "MEDIUM"
    else "LOW"
  let ranked := sortDesc (contrib.filter fun kv => kv.2 > 0)
  let topFactors := (ranked.take 3).map fun kv => tierLabel kv.1
  return (tier, String.intercalate "; " topFactors)

/-- The conservative boolean fallback branch of `_compute_risk_tier`. -/
def fallbackTier (scope : String) (signals : List (String × Int))
    (hasCycles : Bool) (topRiskCells : Int) (scoringCfg : CfgVal) :
    String × String :=
  let flag := fun name => pyTruthy (cfgGet scoringCfg (scope ++ name) (.vBool true))
  let tSym := flag ".symbolic_counts_as_medium"
  let tTop := flag ".top_risk_counts_as_medium"
  let tVol := flag ".volatile_counts_as_medium"
  let tCon := flag ".constants_counts_as_medium"
  let tOrp := flag ".orphans_counts_as_medium"
  let cyclesHigh := flag ".cycles_make_high"
  let sym := sgGet signals "symbolic"
  let vol := sgGet signals "volatile"
  let consts := sgGet signals "constants"
  let orphans := sgGet signals "orphans"
  let tier :=
    if cyclesHigh && hasCycles then "HIGH"
    else if (tTop && topRiskCells > 0) || (tVol && vol > 0) ||
            (tSym && sym > 0) || (tCon && consts > 0) ||
            (tOrp && orphans > 0) then "MEDIUM"
    else "LOW"
  let bits :=
    (if hasCycles then ["circular dependency"] else []) ++
    (if topRiskCells > 0 then [toString topRiskCells ++ " high-impact cell(s)"] else []) ++
    (if vol > 0 then [toString vol ++ " volatile hit(s)"] else []) ++
    (if sym > 0 then [toString sym ++ " symbolic ref(s)"] else []) ++
    (if consts > 0 then [toString consts ++ " embedded constant(s)"] else []) ++
    (if orphans > 0 then [toString orphans ++ " orphan formula(s)"] else [])
  (tier, String.intercalate "; " bits)

/-- `overrides = _cfg_get(scoring_cfg, "overrides", {}) or {}`. -/
def overridesOf (scoringCfg : CfgVal) : CfgVal :=
  let raw := cfgGet scoringCfg "overrides" (.vDict [])
  if pyTruthy raw then raw else .vDict []

/-- `bool(overrides.get("cycle_always_high", True))` for a resolved overrides
dict. -/
def cycleAlwaysHigh (ov : List (String × CfgVal)) : Bool :=
  pyTruthy ((assocLookup ov "cycle_always_high").getD (.vBool true))

/-- `_compute_risk_tier(scope, signals_map, has_cycles, top_risk_cells,
scoring_cfg)`.  The cycle override is checked first:
`bool(overrides.get("cycle_always_high", True)) and bool(has_cycles)` forces
`("HIGH", "circular dependency detected")` before any scoring.  A truthy
non-dict `overrides` value would raise `AttributeError` on `.get` in Python,
modelled by the error branch. -/
def computeRiskTier (scope : String) (signals : List (String × Int))
    (hasCycles : Bool) (topRiskCells : Int) (scoringCfg : CfgVal) :
    Except String (String × String) :=
  let thresholds := cfgGet scoringCfg (scope ++ ".thresholds") .vNone
  let weights := cfgGet scoringCfg (scope ++ ".weights") .vNone
  match overridesOf scoringCfg with
  | .vDict ov =>
    if cycleAlwaysHigh ov && hasCycles then
      .ok ("HIGH", "circular dependency detected")
    else
      match thresholds, weights with
      | .vDict th, .vDict ws => weightedTier th ws signals hasCycles topRiskCells
      | _, _ => .ok (fallbackTier scope signals hasCycles topRiskCells scoringCfg)
  | _ => .error "AttributeError: object has no attribute get"

/-- The dependency graph the scan loop builds for the chain
`B1 = "=A1"`, `C1 = "=B1"`, `D1 = "=C1"` on sheet `Sheet1`, via
`extract_reference_tokens` and the incremental `build_dependency_graph`
(edges point from the dependent formula cell to the cell it references). -/
def chainGraph : DiGraph :=
  (build_dependency_graph "Sheet1" "D1" (extract_reference_tokens "=C1")
    (build_dependency_graph "Sheet1" "C1" (extract_reference_tokens "=B1")
      (build_dependency_graph "Sheet1" "B1" (extract_reference_tokens "=A1")
        ⟨[], []⟩ (some [])).1 (some [])).1 (some [])).1

/-- The two-node cycle `Sheet1!A1 → Sheet1!B1 → Sheet1!A1` (as networkx
`add_edge` builds it). -/
def twoCycleGraph : DiGraph :=
  (DiGraph.addEdge (DiGraph.addEdge ⟨[], []⟩ "Sheet1!A1" "Sheet1!B1")
    "Sheet1!B1" "Sheet1!A1")

/-- Total number of grouped cells across all rows. -/
def sizeSum (groups : List (Nat × List (String × String × String))) : Nat :=
  (groups.map fun p => p.2.length).sum

/-! ## Helper lemmas -/

/-- One unfolding step of `detectCyclesLoop` on a cons cell. -/
theorem detectCyclesLoop_cons (limit : Int) (c : List String)
    (rest : List (List String)) (acc : List CycleEntry) :
    detectCyclesLoop limit (c :: rest) acc =
      if limit ≤ ((acc ++ [cycEntry c]).length : Int) then
        (acc ++ [cycEntry c], true)
      else detectCyclesLoop limit rest (acc ++ [cycEntry c]) := rfl

/-- Unfolding of `detect_cycles` without a failure. -/
theorem detect_cycles_none_eq (simpleCycles : List (List String)) (limit : Int) :
    detect_cycles simpleCycles none limit =
      (detectCyclesLoop limit simpleCycles []).1 := rfl

/-- Unfolding of `detect_cycles` with a failure. -/
theorem detect_cycles_some_eq (simpleCycles : List (List String)) (d : String)
    (limit : Int) :
    detect_cycles simpleCycles (some d) limit =
      if (detectCyclesLoop limit simpleCycles []).2 = true then
        (detectCyclesLoop limit simpleCycles []).1
      else
        (detectCyclesLoop limit simpleCycles []).1 ++
          [{ type := "error", cells := [], details := some d }] := rfl

/-- `detectCyclesLoop` keeps the output below `limit` when the accumulator is,
and a `false` break flag means the output is still strictly below `limit`. -/
theorem detectCyclesLoop_bound (limit : Int) :
    ∀ (cycles : List (List String)) (acc : List CycleEntry),
      (acc.length : Int) < limit →
      ((detectCyclesLoop limit cycles acc).1.length : Int) ≤ limit ∧
      ((detectCyclesLoop limit cycles acc).2 = false →
        ((detectCyclesLoop limit cycles acc).1.length : Int) < limit) := by
  intro cycles
  induction cycles with
  | nil =>
    intro acc h
    exact ⟨le_of_lt h, fun _ => h⟩
  | cons c rest ih =>
    intro acc h
    rw [detectCyclesLoop_cons]
    by_cases hb : limit ≤ ((acc ++ [cycEntry c]).length : Int)
    · rw [if_pos hb]
      refine ⟨?_, fun hf => by simp at hf⟩
      simp only [List.length_append, List.length_cons, List.length_nil]
      push_cast
      omega
    · rw [if_neg hb]
      exact ih _ (lt_of_not_le hb)

/-- Entries produced by `detectCyclesLoop` on top of an all-cycle accumulator
are all of type `"cycle"`. -/
theorem detectCyclesLoop_types (limit : Int) :
    ∀ (cycles : List (List String)) (acc : List CycleEntry),
      (∀ e ∈ acc, e.type = "cycle") →
      ∀ e ∈ (detectCyclesLoop limit cycles acc).1, e.type = "cycle" := by
  intro cycles
  induction cycles with
  | nil =>
    intro acc h
    exact h
  | cons c rest ih =>
    intro acc h
    have h2 : ∀ e ∈ acc ++ [cycEntry c], e.type = "cycle" := by
      intro e he
      rcases List.mem_append.1 he with h1 | h1
      · exact h e h1
      · simp only [List.mem_singleton] at h1
        subst h1
        rfl
    rw [detectCyclesLoop_cons]
    by_cases hb : limit ≤ ((acc ++ [cycEntry c]).length : Int)
    · rw [if_pos hb]
      exact h2
    · rw [if_neg hb]
      exact ih _ h2

/-- When the accumulator plus all remaining cycles stays strictly below
`limit`, the loop consumes everything and never breaks. -/
theorem detectCyclesLoop_nobreak (limit : Int) :
    ∀ (cycles : List (List String)) (acc : List CycleEntry),
      ((acc.length : Int) + (cycles.length : Int) < limit) →
      detectCyclesLoop limit cycles acc = (acc ++ cycles.map cycEntry, false) := by
  intro cycles
  induction cycles with
  | nil =>
    intro acc _
    simp [detectCyclesLoop]
  | cons c rest ih =>
    intro acc h
    rw [detectCyclesLoop_cons]
    have hlen : ((acc ++ [cycEntry c]).length : Int) = (acc.length : Int) + 1 := by
      simp
    have hb : ¬ limit ≤ ((acc ++ [cycEntry c]).length : Int) := by
      rw [hlen]
      simp only [List.length_cons] at h
      push_cast at h ⊢
      omega
    rw [if_neg hb, ih]
    · simp
    · rw [hlen]
      simp only [List.length_cons] at h
      push_cast at h ⊢
      omega

/-! ## Claim theorems -/

/-- C1.  Whenever the resolved `overrides` table (absent or falsy config
entries resolve to the empty dict) leaves `cycle_always_high` absent or
truthy, `_compute_risk_tier` called with `has_cycles = True` returns tier
`HIGH` with reason `"circular dependency detected"`, for every scope, every
signal map, every top-risk-cell count and every weight/threshold
configuration: a scope containing a cycle is never tiered below HIGH under
the default policy. -/
theorem cycle_override_forces_high (scope : String)
    (signals : List (String × Int)) (topRiskCells : Int) (scoringCfg : CfgVal)
    (h : ∃ ov, overridesOf scoringCfg = CfgVal.vDict ov ∧
          cycleAlwaysHigh ov = true) :
    computeRiskTier scope signals true topRiskCells scoringCfg =
      Except.ok ("HIGH", "circular dependency detected") := by
  obtain ⟨ov, hov, hc⟩ := h
  simp [computeRiskTier, hov, hc]

/-- Witness for C1: the empty scoring configuration (flag absent) with a
cycle present yields `("HIGH", "circular dependency detected")`. -/
theorem cycle_override_forces_high_witness :
    computeRiskTier "sheet" [] true 0 (CfgVal.vDict []) =
      Except.ok ("HIGH", "circular dependency detected") :=
  cycle_override_forces_high "sheet" [] 0 (CfgVal.vDict []) ⟨[], rfl, rfl⟩

/-- C4.  With the default (empty) configuration — whose empty
`risky_operators` falls back to `{"*", "/"}` rather than flagging every
literal — `detect_hardcoded_constants` flags exactly one hit for
`"=A1*1.05"`, with literal `"1.05"` and operator `"*"`, and flags nothing for
`"=A1+1"`. -/
theorem default_constants_detection :
    detect_hardcoded_constants "=A1*1.05" {} =
      [{ literal := "1.05", value := ⟨105, 100⟩, operator := "*",
         function := "", startPos := 4, endPos := 8 }] ∧
    detect_hardcoded_constants "=A1+1" {} = [] := by
  exact ⟨rfl, rfl⟩

/-- C2 (evaluation at the failing input).  For the four-node chain in which
D1 depends on C1 depends on B1 depends on A1, `downstream_reach` follows the
dependent→referenced edges, so it returns 0 for A1 — not 3 as the claim
states — and 3 for D1; A1's reach is in fact the minimum, not the strict
maximum.  The ranker's own docstrings promise "downstream dependents", which
is what the claim describes, so the code computes the wrong end of the
chain. -/
theorem chain_reach_values :
    downstream_reach chainGraph "Sheet1!A1" 200000 = 0 ∧
    downstream_reach chainGraph "Sheet1!D1" 200000 = 3 ∧
    downstream_reach chainGraph "Sheet1!C1" 200000 = 2 ∧
    downstream_reach chainGraph "Sheet1!B1" 200000 = 1 := by
  exact ⟨rfl, rfl, rfl, rfl⟩

/-- C3 (counterexample).  `extract_reference_tokens("=Sheet2!A1:B5")` does
not return exactly one token: it returns three (the bare-address pass
re-matches `A1:B5` without the sheet, and the named-range pass emits a
symbolic token for `Sheet2`). -/
theorem sheet_range_not_single_token :
    (extract_reference_tokens "=Sheet2!A1:B5").length = 3 ∧
    (extract_reference_tokens "=Sheet2!A1:B5").length ≠ 1 := by
  exact ⟨rfl, by decide⟩

/-- C3 (amended).  `extract_reference_tokens("=Sheet2!A1:B5")` returns three
tokens: first the range token with `raw = "A1:B5"` and `sheet = "Sheet2"`
(non-symbolic) — the only token carrying the sheet qualifier — followed by a
sheetless duplicate of the same range and a symbolic named-range candidate
for the sheet name itself. -/
theorem sheet_range_tokens :
    extract_reference_tokens "=Sheet2!A1:B5" =
      [{ raw := "A1:B5", sheet := some "Sheet2", kind := "range", symbolic := false },
       { raw := "A1:B5", sheet := none, kind := "range", symbolic := false },
       { raw := "Sheet2", sheet := none, kind := "symbolic", symbolic := true }] := by
  rfl

/-- C6 (counterexample).  `detect_cycles` checks the limit only after
appending, so with `limit = 0` a graph with one self-loop still yields one
entry — more than `limit`. -/
theorem detect_cycles_limit_zero :
    detect_cycles [["Sheet1!A1"]] none 0 =
      [{ type := "cycle", cells := ["Sheet1!A1"] }] ∧
    ¬ (((detect_cycles [["Sheet1!A1"]] none 0).length : Int) ≤ 0) := by
  exact ⟨rfl, by decide⟩

/-- C6 (amended).  For every cycle enumeration, enumeration failure and every
limit of at least 1 (for `limit ≤ 0` a single entry can escape, as the
counterexample shows), `detect_cycles` returns at most `limit` entries —
stopping as soon as `limit` cycles are collected — and the truncation is
silent: when the enumeration does not fail, every returned entry has type
`"cycle"` and no error entry is produced by hitting the limit. -/
theorem detect_cycles_bounded (cycles : List (List String))
    (failure : Option String) (limit : Int) (h : 1 ≤ limit) :
    ((detect_cycles cycles failure limit).length : Int) ≤ limit ∧
    (failure = none →
      ∀ e ∈ detect_cycles cycles failure limit, e.type = "cycle") := by
  have h0 : (([] : List CycleEntry).length : Int) < limit := by
    simpa using h
  obtain ⟨hle, hlt⟩ := detectCyclesLoop_bound limit cycles [] h0
  constructor
  · cases failure with
    | none =>
      rw [detect_cycles_none_eq]
      exact hle
    | some d =>
      rw [detect_cycles_some_eq]
      by_cases hb : (detectCyclesLoop limit cycles []).2 = true
      · rw [if_pos hb]
        exact hle
      · rw [if_neg hb]
        have hb' : (detectCyclesLoop limit cycles []).2 = false := by
          revert hb
          cases (detectCyclesLoop limit cycles []).2 <;> simp
        have hlt2 := hlt hb'
        simp only [List.length_append, List.length_cons, List.length_nil]
        push_cast
        push_cast at hlt2
        omega
  · intro hf e he
    subst hf
    rw [detect_cycles_none_eq] at he
    exact detectCyclesLoop_types limit cycles [] (by simp) e he

/-- Witness for C6 (amended): two cycles under the default limit 25. -/
theorem detect_cycles_bounded_witness :
    (1 : Int) ≤ 25 ∧
    ((detect_cycles [["a"], ["b"]] none 25).length : Int) ≤ 25 ∧
    (∀ e ∈ detect_cycles [["a"], ["b"]] none 25, e.type = "cycle") := by
  have h := detect_cycles_bounded [["a"], ["b"]] none 25 (by decide)
  exact ⟨by decide, h.1, h.2 rfl⟩

/-- C10.  `detect_cycles` is total (it always returns a list — the embedding
is a total function).  When the enumeration succeeds every entry is a
`"cycle"` entry, and when the underlying enumeration raises after yielding
fewer cycles than the limit (so that the failing pull is actually reached),
the returned list is the yielded cycles followed by exactly one trailing
entry of type `"error"` with an empty cell list — the exception is converted,
not propagated. -/
theorem detect_cycles_total_error_shape (cycles : List (List String))
    (limit : Int) (d : String) :
    (∀ e ∈ detect_cycles cycles none limit, e.type = "cycle") ∧
    ((cycles.length : Int) < limit →
      detect_cycles cycles (some d) limit =
        cycles.map cycEntry ++
          [{ type := "error", cells := [], details := some d }]) := by
  constructor
  · intro e he
    rw [detect_cycles_none_eq] at he
    exact detectCyclesLoop_types limit cycles [] (by simp) e he
  · intro hlen
    have hnb := detectCyclesLoop_nobreak limit cycles [] (by simpa using hlen)
    rw [detect_cycles_some_eq, hnb]
    simp

/-- Witness for C10: one cycle, then the enumerator raises; the output ends
with the single error entry. -/
theorem detect_cycles_total_error_shape_witness :
    ((([["x"]] : List (List String)).length : Int) < 25) ∧
    detect_cycles [["x"]] (some "RecursionError: boom") 25 =
      [{ type := "cycle", cells := ["x"] },
       { type := "error", cells := [], details := some "RecursionError: boom" }] := by
  refine ⟨by decide, ?_⟩
  have h := (detect_cycles_total_error_shape [["x"]] 25 "RecursionError: boom").2 (by decide)
  simpa using h

/-- C9.  Calling the incremental `build_dependency_graph` with any required
input missing (`sheet_name`, `cell_addr`, `refs` or `g` equal to `None`)
raises `TypeError` instead of returning normally, and the graph and the
symbolic-edge sink passed in are left exactly unchanged (the raise happens
before any mutation). -/
theorem build_graph_missing_args (sheetName cellAddr : Option String)
    (refs : Option (List RefToken)) (g : Option DiGraph)
    (symbolicEdges : Option (List SymbolicEdge))
    (h : sheetName = none ∨ cellAddr = none ∨ refs = none ∨ g = none) :
    build_dependency_graph_call sheetName cellAddr refs g symbolicEdges =
      (Except.error
        "TypeError: build_dependency_graph: missing required args (sheet_name, cell_addr, refs, g)",
       g, symbolicEdges) := by
  cases sheetName with
  | none => rfl
  | some s =>
    cases cellAddr with
    | none => rfl
    | some a =>
      cases refs with
      | none => rfl
      | some rs =>
        cases g with
        | none => rfl
        | some gr => rcases h with h | h | h | h <;> simp at h

/-- Witness for C9: a call without a sheet name errors and leaves the passed
graph and sink untouched. -/
theorem build_graph_missing_args_witness :
    build_dependency_graph_call none (some "A1")
      (some []) (some ⟨["n"], []⟩) (some []) =
      (Except.error
        "TypeError: build_dependency_graph: missing required args (sheet_name, cell_addr, refs, g)",
       some ⟨["n"], []⟩, some []) :=
  build_graph_missing_args none (some "A1") (some []) (some ⟨["n"], []⟩)
    (some []) (Or.inl rfl)

/-! ## C5: BFS start-node membership -/

/-- Everything `dedupFirstAux` keeps came from the input list. -/
theorem mem_of_mem_dedupFirstAux {α : Type} [DecidableEq α] :
    ∀ (l : List α) (seen : List α) (x : α), x ∈ dedupFirstAux seen l → x ∈ l := by
  intro l
  induction l with
  | nil => intro seen x hx; exact absurd hx (by simp [dedupFirstAux])
  | cons a as ih =>
    intro seen x hx
    rw [dedupFirstAux] at hx
    by_cases ha : a ∈ seen
    · rw [if_pos ha] at hx
      exact List.mem_cons_of_mem a (ih _ x hx)
    · rw [if_neg ha] at hx
      rcases List.mem_cons.1 hx with h | h
      · exact h ▸ List.mem_cons_self a as
      · exact List.mem_cons_of_mem a (ih _ x h)

/-- Successors are always edge targets. -/
theorem succs_subset_edgeTargets (g : DiGraph) (n x : String)
    (hx : x ∈ succs g n) : x ∈ edgeTargets g := by
  have h1 : x ∈ (g.edges.filter fun e => e.1 = n).map Prod.snd :=
    mem_of_mem_dedupFirstAux _ [] x hx
  rcases List.mem_map.1 h1 with ⟨e, he, hex⟩
  exact hex ▸ List.mem_map.2 ⟨e, List.mem_of_mem_filter he, rfl⟩

/-- Members of the visited set after `pushNew` were already visited or are
among the pushed candidates. -/
theorem mem_pushNew_fst :
    ∀ (ns : List String) (st : List String × List String) (x : String),
      x ∈ (pushNew st ns).1 → x ∈ st.1 ∨ x ∈ ns := by
  intro ns
  induction ns with
  | nil => intro st x hx; exact Or.inl hx
  | cons n rest ih =>
    intro st x hx
    rw [pushNew] at hx
    simp only [List.foldl_cons] at hx
    by_cases hn : n ∈ st.1
    · rw [if_pos hn] at hx
      rcases ih st x hx with h | h
      · exact Or.inl h
      · exact Or.inr (List.mem_cons_of_mem n h)
    · rw [if_neg hn] at hx
      rcases ih _ x hx with h | h
      · rcases List.mem_append.1 h with h1 | h1
        · exact Or.inl h1
        · simp only [List.mem_singleton] at h1
          exact Or.inr (h1 ▸ List.mem_cons_self n rest)
      · exact Or.inr (List.mem_cons_of_mem n h)

/-- BFS invariant: every node the loop ever visits was already visited or is
an edge target of the graph. -/
theorem mem_bfsLoop (g : DiGraph) (maxNodes : Int) :
    ∀ (fuel : Nat) (visited q : List String) (x : String),
      x ∈ bfsLoop g maxNodes fuel visited q →
      x ∈ visited ∨ x ∈ edgeTargets g := by
  intro fuel
  induction fuel with
  | zero => intro visited q x hx; exact Or.inl hx
  | succ fuel ih =>
    intro visited q x hx
    cases q with
    | nil => exact Or.inl hx
    | cons node rest =>
      rw [bfsLoop] at hx
      by_cases hc : (visited.length : Int) < maxNodes
      · rw [if_pos hc] at hx
        rcases ih _ _ x hx with h | h
        · rcases mem_pushNew_fst _ _ x h with h1 | h1
          · exact Or.inl h1
          · exact Or.inr (succs_subset_edgeTargets g node x h1)
        · exact Or.inr h
      · rw [if_neg hc] at hx
        exact Or.inl hx

/-- C5 (amended).  `downstream_reach` returns the size of the visited set of
the bounded BFS over outgoing edges seeded with the successors of `start`;
the start node is absent from that set — and hence excluded from the count —
whenever no edge of the graph points at it.  A start node lying on a directed
cycle is reachable from itself and *is* counted (see the counterexample
theorem). -/
theorem downstream_reach_start_exclusion (g : DiGraph) (start : String)
    (maxNodes : Int) (h : start ∉ edgeTargets g) :
    start ∉ reachList g start maxNodes ∧
    downstream_reach g start maxNodes =
      ((reachList g start maxNodes).length : Int) := by
  refine ⟨fun hmem => ?_, rfl⟩
  rw [reachList] at hmem
  rcases mem_bfsLoop g maxNodes _ _ _ start hmem with h1 | h1
  · rcases mem_pushNew_fst _ _ start h1 with h2 | h2
    · simp at h2
    · exact h (succs_subset_edgeTargets g start start h2)
  · exact h h1

/-- Witness for C5 (amended): a single edge out of the start node; the start
is not a target and is not counted. -/
theorem downstream_reach_start_exclusion_witness :
    ("X!A" ∉ edgeTargets ⟨[], [("X!A", "X!B")]⟩) ∧
    "X!A" ∉ reachList ⟨[], [("X!A", "X!B")]⟩ "X!A" 200000 :=
  ⟨by decide,
   (downstream_reach_start_exclusion ⟨[], [("X!A", "X!B")]⟩ "X!A" 200000
     (by decide)).1⟩

/-- C5 (counterexample).  On the two-node cycle, `downstream_reach` from
`Sheet1!A1` returns 2, and the start node itself is in the visited set: the
claim that the start node is never included in the returned count —
"including when the start node lies on a directed cycle" — is false on the
code. -/
theorem downstream_reach_counts_start_on_cycle :
    downstream_reach twoCycleGraph "Sheet1!A1" 200000 = 2 ∧
    "Sheet1!A1" ∈ reachList twoCycleGraph "Sheet1!A1" 200000 := by
  exact ⟨rfl, by decide⟩

/-! ## C8: idempotence of edge insertion -/

theorem addNode_self_mem (g : DiGraph) (n : String) : n ∈ (g.addNode n).nodes := by
  unfold DiGraph.addNode
  by_cases h : n ∈ g.nodes
  · rw [if_pos h]; exact h
  · rw [if_neg h]; simp

theorem addNode_noop (g : DiGraph) (n : String) (h : n ∈ g.nodes) :
    g.addNode n = g := by
  unfold DiGraph.addNode
  rw [if_pos h]

theorem addEdge_self_mem (g : DiGraph) (u v : String) :
    (u, v) ∈ (g.addEdge u v).edges := by
  unfold DiGraph.addEdge
  by_cases h : (u, v) ∈ g.edges
  · simp only [if_pos h]
    exact h
  · simp [h]

theorem addEdge_edges_mono (g : DiGraph) (u v : String) (e : String × String)
    (he : e ∈ g.edges) : e ∈ (g.addEdge u v).edges := by
  unfold DiGraph.addEdge
  by_cases h : (u, v) ∈ g.edges
  · simpa [h] using he
  · simp [h, he]

theorem addEdge_nodes_mono (g : DiGraph) (u v : String) (n : String)
    (hn : n ∈ g.nodes) : n ∈ (g.addEdge u v).nodes := by
  simp only [DiGraph.addEdge]
  split_ifs <;> simp [hn]

theorem addEdge_target_mem (g : DiGraph) (u v : String) :
    v ∈ (g.addEdge u v).nodes := by
  simp only [DiGraph.addEdge]
  split_ifs <;> simp_all

theorem addEdge_noop (g : DiGraph) (u v : String) (hu : u ∈ g.nodes)
    (hv : v ∈ g.nodes) (he : (u, v) ∈ g.edges) : g.addEdge u v = g := by
  simp [DiGraph.addEdge, hu, hv, he]

/-- The graph component of one `processRef` step. -/
theorem processRef_fst (sheetName dep : String)
    (st : DiGraph × Option (List SymbolicEdge)) (r : RefToken) :
    (processRef sheetName dep st r).1 =
      if refRaw r = "" then st.1
      else st.1.addEdge dep (refTarget sheetName r) := by
  unfold processRef
  by_cases h : refRaw r = "" <;> simp [h]

theorem foldl_processRef_edges_mono (sheetName dep : String) :
    ∀ (refs : List RefToken) (st : DiGraph × Option (List SymbolicEdge))
      (e : String × String), e ∈ st.1.edges →
      e ∈ (refs.foldl (processRef sheetName dep) st).1.edges := by
  intro refs
  induction refs with
  | nil => intro st e he; exact he
  | cons r rest ih =>
    intro st e he
    rw [List.foldl_cons]
    refine ih _ e ?_
    rw [processRef_fst]
    by_cases h : refRaw r = ""
    · rw [if_pos h]; exact he
    · rw [if_neg h]; exact addEdge_edges_mono _ _ _ e he

theorem foldl_processRef_nodes_mono (sheetName dep : String) :
    ∀ (refs : List RefToken) (st : DiGraph × Option (List SymbolicEdge))
      (n : String), n ∈ st.1.nodes →
      n ∈ (refs.foldl (processRef sheetName dep) st).1.nodes := by
  intro refs
  induction refs with
  | nil => intro st n hn; exact hn
  | cons r rest ih =>
    intro st n hn
    rw [List.foldl_cons]
    refine ih _ n ?_
    rw [processRef_fst]
    by_cases h : refRaw r = ""
    · rw [if_pos h]; exact hn
    · rw [if_neg h]; exact addEdge_nodes_mono _ _ _ n hn

/-- After the fold, every processed non-empty token has its edge recorded and
its target node present. -/
theorem foldl_processRef_edge_present (sheetName dep : String) :
    ∀ (refs : List RefToken) (st : DiGraph × Option (List SymbolicEdge))
      (r : RefToken), r ∈ refs → refRaw r ≠ "" →
      (dep, refTarget sheetName r) ∈
        (refs.foldl (processRef sheetName dep) st).1.edges ∧
      refTarget sheetName r ∈
        (refs.foldl (processRef sheetName dep) st).1.nodes := by
  intro refs
  induction refs with
  | nil => intro st r hr; exact absurd hr (List.not_mem_nil r)
  | cons r0 rest ih =>
    intro st r hr hraw
    rw [List.foldl_cons]
    rcases List.mem_cons.1 hr with h | h
    · subst h
      have hfst : (processRef sheetName dep st r).1 =
          st.1.addEdge dep (refTarget sheetName r) := by
        rw [processRef_fst, if_neg hraw]
      constructor
      · refine foldl_processRef_edges_mono sheetName dep rest _ _ ?_
        rw [hfst]
        exact addEdge_self_mem _ _ _
      · refine foldl_processRef_nodes_mono sheetName dep rest _ _ ?_
        rw [hfst]
        exact addEdge_target_mem _ _ _
    · exact ih _ r h hraw

/-- When the dependent node is already present and every non-empty token's
edge and target node are already in the graph, the fold leaves the graph
component exactly unchanged. -/
theorem foldl_processRef_noop (sheetName dep : String) :
    ∀ (refs : List RefToken) (st : DiGraph × Option (List SymbolicEdge)),
      dep ∈ st.1.nodes →
      (∀ r ∈ refs, refRaw r ≠ "" →
        (dep, refTarget sheetName r) ∈ st.1.edges ∧
        refTarget sheetName r ∈ st.1.nodes) →
      (refs.foldl (processRef sheetName dep) st).1 = st.1 := by
  intro refs
  induction refs with
  | nil => intro st _ _; rfl
  | cons r rest ih =>
    intro st hdep h
    rw [List.foldl_cons]
    have hfst : (processRef sheetName dep st r).1 = st.1 := by
      rw [processRef_fst]
      by_cases hraw : refRaw r = ""
      · rw [if_pos hraw]
      · rw [if_neg hraw]
        obtain ⟨he, hv⟩ := h r (List.mem_cons_self r rest) hraw
        exact addEdge_noop _ _ _ hdep hv he
    have := ih (processRef sheetName dep st r)
      (by rw [hfst]; exact hdep)
      (by
        intro r2 hr2 hraw2
        rw [hfst]
        exact h r2 (List.mem_cons_of_mem r hr2) hraw2)
    rw [this, hfst]

/-- C8.  Edge insertion is idempotent: re-running the incremental
`build_dependency_graph` with identical `sheet_name`, `cell_addr`, token list
and symbolic-edge sink on the graph produced by the first run leaves the
dependency graph — its node list and edge list — exactly equal to the graph
after the first run. -/
theorem build_dependency_graph_idempotent (sheetName cellAddr : String)
    (refs : List RefToken) (g : DiGraph) (se : Option (List SymbolicEdge)) :
    (build_dependency_graph sheetName cellAddr refs
        (build_dependency_graph sheetName cellAddr refs g se).1
        (build_dependency_graph sheetName cellAddr refs g se).2).1 =
      (build_dependency_graph sheetName cellAddr refs g se).1 := by
  have hb : build_dependency_graph sheetName cellAddr refs g se =
      refs.foldl (processRef sheetName (nodeId sheetName cellAddr))
        ((g.addNode (nodeId sheetName cellAddr)), se) := rfl
  set dep := nodeId sheetName cellAddr with hdepdef
  set st1 := refs.foldl (processRef sheetName dep) ((g.addNode dep), se) with hst1
  have hdep1 : dep ∈ st1.1.nodes := by
    rw [hst1]
    exact foldl_processRef_nodes_mono sheetName dep refs _ dep
      (addNode_self_mem g dep)
  have hedges : ∀ r ∈ refs, refRaw r ≠ "" →
      (dep, refTarget sheetName r) ∈ st1.1.edges ∧
      refTarget sheetName r ∈ st1.1.nodes := by
    intro r hr hraw
    rw [hst1]
    exact foldl_processRef_edge_present sheetName dep refs _ r hr hraw
  rw [hb]
  show (refs.foldl (processRef sheetName dep) (st1.1.addNode dep, st1.2)).1 = st1.1
  rw [addNode_noop st1.1 dep hdep1]
  exact foldl_processRef_noop sheetName dep refs (st1.1, st1.2) hdep1 hedges

/-! ## C7: drift detection -/

theorem sizeSum_upsertRow (r : Nat) (it : String × String × String) :
    ∀ rows, sizeSum (upsertRow rows r it) = sizeSum rows + 1 := by
  intro rows
  induction rows with
  | nil => simp [upsertRow, sizeSum]
  | cons p rest ih =>
    obtain ⟨k, items⟩ := p
    rw [upsertRow]
    by_cases hk : k = r
    · rw [if_pos hk]
      simp [sizeSum]
      omega
    · rw [if_neg hk]
      simp only [sizeSum, List.map_cons, List.sum_cons] at ih ⊢
      omega

/-- Folding cells into row groups adds at most one grouped cell per input
cell. -/
theorem sizeSum_foldl_le :
    ∀ (cells : List (String × String))
      (rows0 : List (Nat × List (String × String × String))),
      sizeSum (cells.foldl buildRowsStep rows0) ≤ sizeSum rows0 + cells.length := by
  intro cells
  induction cells with
  | nil => intro rows0; simp
  | cons c rest ih =>
    intro rows0
    rw [List.foldl_cons]
    have hstep : sizeSum (buildRowsStep rows0 c) ≤ sizeSum rows0 + 1 := by
      rcases hp : parseRowAddr c.1 with _ | r
      · simp only [buildRowsStep, hp]
        omega
      · simp only [buildRowsStep, hp]
        by_cases hs : normalize_formula c.2 = ""
        · simp only [if_pos hs]
          omega
        · simp only [if_neg hs]
          rw [sizeSum_upsertRow]
    have := ih (buildRowsStep rows0 c)
    simp only [List.length_cons]
    omega

/-- Each row group is no larger than the total. -/
theorem group_le_sizeSum :
    ∀ (groups : List (Nat × List (String × String × String)))
      (p : Nat × List (String × String × String)), p ∈ groups →
      p.2.length ≤ sizeSum groups := by
  intro groups
  induction groups with
  | nil => intro p hp; exact absurd hp (List.not_mem_nil p)
  | cons q rest ih =>
    intro p hp
    rcases List.mem_cons.1 hp with h | h
    · subst h
      simp [sizeSum]
    · have := ih p h
      simp only [sizeSum, List.map_cons, List.sum_cons] at this ⊢
      omega

/-- Rows all below the minimum group size produce no findings and no early
return. -/
theorem driftRows_skip_all (sheet : String) (minGroup : Int) (share : PyFloat)
    (maxF : Int) :
    ∀ (rows : List (Nat × List (String × String × String)))
      (acc : List DriftFinding),
      (∀ p ∈ rows, (p.2.length : Int) < minGroup) →
      driftRows sheet minGroup share maxF rows acc = (acc, false) := by
  intro rows
  induction rows with
  | nil => intro acc _; rfl
  | cons p rest ih =>
    intro acc h
    obtain ⟨r, items⟩ := p
    rw [driftRows, if_pos (h (r, items) (List.mem_cons_self _ _))]
    exact ih acc fun q hq => h q (List.mem_cons_of_mem _ hq)

/-- C7.  With the default configuration (`min_row_formula_count = 6`,
`dominant_ratio = 0.60`, `max_findings = 50`): (a) a qualifying row of six
formula cells whose normalized shapes are `[X, X, X, X, X, Y]` with `X ≠ Y`
(both non-empty, as every formula shape is) produces exactly one finding, for
the single cell of shape `Y`, carrying the dominant shape `X`; and (b) a
sheet with only five formula cells produces no finding at all, regardless of
addresses, formulas or shapes. -/
theorem drift_flags_single_deviant (sheet : String)
    (a1 a2 a3 a4 a5 a6 f1 f2 f3 f4 f5 f6 X Y : String) (r : Nat)
    (h1 : parseRowAddr a1 = some r) (h2 : parseRowAddr a2 = some r)
    (h3 : parseRowAddr a3 = some r) (h4 : parseRowAddr a4 = some r)
    (h5 : parseRowAddr a5 = some r) (h6 : parseRowAddr a6 = some r)
    (hs1 : normalize_formula f1 = X) (hs2 : normalize_formula f2 = X)
    (hs3 : normalize_formula f3 = X) (hs4 : normalize_formula f4 = X)
    (hs5 : normalize_formula f5 = X) (hs6 : normalize_formula f6 = Y)
    (hXY : X ≠ Y) (hX : X ≠ "") (hY : Y ≠ "") :
    detect_formula_drift
        [(sheet, [(a1, f1), (a2, f2), (a3, f3), (a4, f4), (a5, f5), (a6, f6)])]
        {} =
      [{ sheet := sheet, cell := a6, formula := f6, dominantShape := X,
         cellShape := Y, row := r, driftScope := "row",
         note := "Formula shape differs from dominant pattern in the same row (possible copy/paste drift)." }] ∧
    (∀ cells : List (String × String), cells.length = 5 →
      detect_formula_drift [(sheet, cells)] {} = []) := by
  constructor
  · have hrows : buildRows
        [(a1, f1), (a2, f2), (a3, f3), (a4, f4), (a5, f5), (a6, f6)] =
        [(r, [(a1, f1, X), (a2, f2, X), (a3, f3, X), (a4, f4, X), (a5, f5, X),
              (a6, f6, Y)])] := by
      simp only [buildRows, List.foldl_cons, List.foldl_nil, buildRowsStep,
        h1, h2, h3, h4, h5, h6, hs1, hs2, hs3, hs4, hs5, hs6]
      simp [upsertRow, hX, hY]
    have hcounts : countShapes [X, X, X, X, X, Y] = [(X, 5), (Y, 1)] := by
      simp [countShapes, countShapes.upsertCount, hXY]
    have hmc : mostCommon1 [(X, 5), (Y, 1)] = some (X, 5) := by
      norm_num [mostCommon1]
    have hri : driftRowItems sheet X r 50
        [(a1, f1, X), (a2, f2, X), (a3, f3, X), (a4, f4, X), (a5, f5, X),
         (a6, f6, Y)] [] =
        ([{ sheet := sheet, cell := a6, formula := f6, dominantShape := X,
            cellShape := Y, row := r, driftScope := "row",
            note := "Formula shape differs from dominant pattern in the same row (possible copy/paste drift)." }],
         false) := by
      norm_num [driftRowItems, Ne.symm hXY]
    have hrowsrun : driftRows sheet 6 ⟨3, 5⟩ 50
        [(r, [(a1, f1, X), (a2, f2, X), (a3, f3, X), (a4, f4, X), (a5, f5, X),
              (a6, f6, Y)])] [] =
        ([{ sheet := sheet, cell := a6, formula := f6, dominantShape := X,
            cellShape := Y, row := r, driftScope := "row",
            note := "Formula shape differs from dominant pattern in the same row (possible copy/paste drift)." }],
         false) := by
      have hmap : ([(a1, f1, X), (a2, f2, X), (a3, f3, X), (a4, f4, X),
          (a5, f5, X), (a6, f6, Y)].map fun it => it.2.2) =
          [X, X, X, X, X, Y] := by simp
      rw [driftRows]
      rw [if_neg (by norm_num)]
      rw [hmap, hcounts, hmc]
      norm_num [PyFloat.blt, Nat.max_def, hri, driftRows]
    rcases hres : driftRows sheet 6 ⟨3, 5⟩ 50
        (buildRows [(a1, f1), (a2, f2), (a3, f3), (a4, f4), (a5, f5), (a6, f6)])
        [] with ⟨fs, b⟩
    have hb : fs =
        [{ sheet := sheet, cell := a6, formula := f6, dominantShape := X,
           cellShape := Y, row := r, driftScope := "row",
           note := "Formula shape differs from dominant pattern in the same row (possible copy/paste drift)." }] ∧
        b = false := by
      rw [hrows, hrowsrun] at hres
      exact ⟨(Prod.mk.injEq _ _ _ _ ▸ hres).1.symm,
             (Prod.mk.injEq _ _ _ _ ▸ hres).2.symm⟩
    show driftSheets 6 ⟨3, 5⟩ 50
        [(sheet, [(a1, f1), (a2, f2), (a3, f3), (a4, f4), (a5, f5), (a6, f6)])]
        [] = _
    rw [driftSheets, hres]
    rw [hb.1, hb.2]
    simp [driftSheets]
  · intro cells hlen
    have hrowslt : ∀ p ∈ buildRows cells, ((p.2.length : Nat) : Int) < 6 := by
      intro p hp
      have hle : p.2.length ≤ sizeSum (buildRows cells) :=
        group_le_sizeSum _ p hp
      have h2 : sizeSum (buildRows cells) ≤ sizeSum [] + cells.length :=
        sizeSum_foldl_le cells []
      simp only [sizeSum, List.map_nil, List.sum_nil, Nat.zero_add, hlen]
        at hle h2
      omega
    have hskip := driftRows_skip_all sheet 6 ⟨3, 5⟩ 50 (buildRows cells) []
      hrowslt
    show driftSheets 6 ⟨3, 5⟩ 50 [(sheet, cells)] [] = []
    rw [driftSheets, hskip]
    simp [driftSheets]

/-- Witness for C7: row 1 holds six formula cells, five of shape
`=CELL+NUM` and one (`F1`) of shape `=CELL*NUM`; exactly the `F1` cell is
flagged.  A five-cell sheet yields nothing. -/
theorem drift_flags_single_deviant_witness :
    detect_formula_drift
        [("Sheet1", [("A1", "=A1+1"), ("B1", "=B2+2"), ("C1", "=C3+3"),
                     ("D1", "=D4+4"), ("E1", "=E5+5"), ("F1", "=F6*6")])] {} =
      [{ sheet := "Sheet1", cell := "F1", formula := "=F6*6",
         dominantShape := "=CELL+NUM", cellShape := "=CELL*NUM", row := 1,
         driftScope := "row",
         note := "Formula shape differs from dominant pattern in the same row (possible copy/paste drift)." }] ∧
    detect_formula_drift
        [("Sheet1", [("A1", "=A1+1"), ("B1", "=B2*2"), ("C1", "=C3+3"),
                     ("D1", "=D4*4"), ("E1", "=E5+5")])] {} = [] := by
  have h := drift_flags_single_deviant "Sheet1" "A1" "B1" "C1" "D1" "E1" "F1"
    "=A1+1" "=B2+2" "=C3+3" "=D4+4" "=E5+5" "=F6*6" "=CELL+NUM" "=CELL*NUM" 1
    rfl rfl rfl rfl rfl rfl rfl rfl rfl rfl rfl rfl
    (by decide) (by decide) (by decide)
  exact ⟨h.1, h.2 _ rfl⟩

end SheetGuard
